import Mathlib

/-!
# Verification of the summarena content-aggregation pipeline

Shallow embedding of the Rust sources of the `summarena` repository
(`rss-aggregator` and `email-ingestion` crates) together with proofs of the
specified properties.

Conventions of the embedding:
* Rust `DateTime<Utc>` instants are modelled as `Int` (seconds since an
  arbitrary epoch); `chrono::Duration::hours h` is `3600 * h` seconds.
* Rust `f64` relevance scores are modelled as exact rationals `ℚ`; the
  literals `0.3`, `0.4`, `0.5`, `0.2` of the source become `3/10`, `2/5`,
  `1/2`, `1/5`.
* Rust `String`/`&str` values are modelled as `List Char`; `str::contains`,
  `str::find` and friends are re-implemented structurally below.
* Database tables are modelled as lists of row structures; a fallible
  SQL statement returns `Option`/a result pair, `none` standing for an
  `Err` return of the surrounding Rust function.
-/

/-! ## String utilities (models of Rust `str` operations on `List Char`) -/

/-- Model of `str::starts_with` on character lists. -/
def prefixOfB : List Char → List Char → Bool
  | [], _ => true
  | _ :: _, [] => false
  | a :: as, b :: bs => if a = b then prefixOfB as bs else false

/-- Model of Rust `str::contains` (`needle` occurs contiguously in `hay`). -/
def containsSub (hay needle : List Char) : Bool :=
  match hay with
  | [] => needle.isEmpty
  | _ :: t => prefixOfB needle hay || containsSub t needle

/-- Model of `text.find(needle)` followed by slicing `text[idx + needle.len()..]`:
returns the remainder of `hay` after the first occurrence of `needle`. -/
def afterFirst (needle : List Char) : List Char → Option (List Char)
  | [] => if needle.isEmpty then some [] else none
  | h :: t =>
    if prefixOfB needle (h :: t) then some (List.drop needle.length (h :: t))
    else afterFirst needle t

/-- Model of `s.find(c)` followed by slicing `s[..idx]`: the part of `l`
strictly before the first occurrence of character `c` (`none` if absent). -/
def takeUntil (c : Char) : List Char → Option (List Char)
  | [] => none
  | h :: t => if h = c then some [] else (takeUntil c t).map (h :: ·)

/-- Model of `str::to_lowercase` (adequate for the ASCII data at hand). -/
def toLowerList (s : String) : List Char := s.toList.map Char.toLower

/-- Model of Rust `str::trim` on character lists. -/
def trimChars (l : List Char) : List Char :=
  ((l.dropWhile Char.isWhitespace).reverse.dropWhile Char.isWhitespace).reverse

/-! ## Relevance scoring (`rss-aggregator/src/digest.rs`)

`calculate_relevance_score` scores one item text against pondered
preferences. Scores are exact rationals standing for the source's `f64`
values (all additions below stay well within `f64` exactness for the
properties proved). -/

/-- The `PonderedPreferences` struct of `digest.rs` (the `memory_context`
field is not read by `calculate_relevance_score` and is omitted). -/
structure PonderedPreferences where
  look_out_for : String
  keywords : List String
  topics : List String

/-- Model of the title-extraction slice inside `calculate_relevance_score`:
`text.find("title: ")`, then the portion up to the next newline. The bonus
loop runs only when both the `"title: "` marker and a following `'\n'`
exist. -/
def titleSliceLower (text : List Char) : Option (List Char) :=
  (afterFirst ("title: ".toList) text).bind (takeUntil '\n')

/-- Faithful model of `calculate_relevance_score` (digest.rs:233-271):
0.3 per matched keyword, 0.4 per matched topic, 0.5 for an exact match of
the whole preference description, 0.2 per keyword found in the extracted
`title: ` line of the lowercased text, capped at 1.0 by `score.min(1.0)`. -/
def calculateRelevanceScore (prefs : PonderedPreferences) (itemText : String) : ℚ :=
  let text := toLowerList itemText
  let s1 : ℚ := prefs.keywords.foldl
    (fun s kw => if containsSub text (toLowerList kw) then s + 3/10 else s) 0
  let s2 : ℚ := prefs.topics.foldl
    (fun s tp => if containsSub text (toLowerList tp) then s + 2/5 else s) s1
  let s3 : ℚ := if containsSub text (toLowerList prefs.look_out_for) then s2 + 1/2 else s2
  let s4 : ℚ :=
    match titleSliceLower text with
    | some title => prefs.keywords.foldl
        (fun s kw => if containsSub title (toLowerList kw) then s + 1/5 else s) s3
    | none => s3
  min s4 1

/-- The number of preference keywords found in the extracted `title: ` line
(the title bonus count of digest.rs:257-267); zero when the marker or its
terminating newline is absent. -/
def titleKeywordCount (keywords : List String) (text : List Char) : Nat :=
  match titleSliceLower text with
  | some title => keywords.countP (fun kw => containsSub title (toLowerList kw))
  | none => 0

/-! ## Time-bucket aggregator (`rss-aggregator/src/aggregators/time_bucket.rs`) -/

/-- The `InputItem` struct of `interfaces/src/defs.rs`. -/
structure InputItem where
  uri : String
  live_source_uri : String
  text : String
  vision : Option (List Nat)
deriving Repr, DecidableEq

/-- The `TimeBucketAggregator` struct (time_bucket.rs:9-15). -/
structure TimeBucketAggregator where
  user_id : String
  bucket_duration_hours : Int
  last_output_time : Option Int
  items : List InputItem
  max_items_per_bucket : Nat
deriving Repr, DecidableEq

/-- The `AggregatedOutput` struct of `traits.rs` as produced by
`TimeBucketAggregator::produce_output` (metadata map modelled as the two
key/value pairs the code inserts). -/
structure AggregatedOutput where
  user_id : String
  aggregator_type : String
  items : List InputItem
  summary : Option String
  created_at : Int
  metadata : List (String × String)
deriving Repr, DecidableEq

/-- Model of `TimeBucketAggregator::new` (time_bucket.rs:18-26). -/
def TimeBucketAggregator.new (userId : String) : TimeBucketAggregator :=
  { user_id := userId
    bucket_duration_hours := 24
    last_output_time := none
    items := []
    max_items_per_bucket := 50 }

/-- Model of `TimeBucketAggregator::add_item` (time_bucket.rs:101-115): push
when below the limit, otherwise `remove(0)` (evict oldest) then push.
(`Vec::remove(0)` on an empty buffer — reachable only with
`max_items_per_bucket = 0` — would panic in Rust; here it is `List.tail`.) -/
def TimeBucketAggregator.addItem (a : TimeBucketAggregator) (item : InputItem) :
    TimeBucketAggregator :=
  if a.items.length < a.max_items_per_bucket then
    { a with items := a.items ++ [item] }
  else
    { a with items := a.items.tail ++ [item] }

/-- Model of `TimeBucketAggregator::is_bucket_ready` (time_bucket.rs:53-62);
`now` is passed explicitly in place of `Utc::now()`. -/
def TimeBucketAggregator.isBucketReady (a : TimeBucketAggregator) (now : Int) : Bool :=
  match a.last_output_time with
  | none => !a.items.isEmpty
  | some lastOutput => now - lastOutput ≥ a.bucket_duration_hours * 3600

/-- Model of `TimeBucketAggregator::should_produce_output` (time_bucket.rs:117-119). -/
def TimeBucketAggregator.shouldProduceOutput (a : TimeBucketAggregator) (now : Int) : Bool :=
  a.isBucketReady now && !a.items.isEmpty

/-- Model of `extract_title_from_item` (time_bucket.rs:179-202). -/
def extractTitleFromItem (item : InputItem) : String :=
  let text := item.text.toList
  let fromMarker :=
    match afterFirst ("Title: ".toList) text with
    | some titlePortion =>
      match takeUntil '\n' titlePortion with
      | some title => some (trimChars title)
      | none =>
        if titlePortion.length ≤ 100 then some (trimChars titlePortion) else none
    | none => none
  match fromMarker with
  | some title => ⟨title⟩
  | none =>
    if text.isEmpty then "Untitled Item"
    else
      let firstLineRaw := text.takeWhile (· ≠ '\n')
      let firstLine :=
        if firstLineRaw.getLast? = some '\r' then firstLineRaw.dropLast else firstLineRaw
      if firstLine.length ≤ 100 then ⟨trimChars firstLine⟩
      else ⟨trimChars (firstLine.take 97) ++ "...".toList⟩

/-- Model of `TimeBucketAggregator::create_summary` (time_bucket.rs:64-92). -/
def TimeBucketAggregator.createSummary (a : TimeBucketAggregator) : String :=
  if a.items.isEmpty then "No items in this time bucket."
  else
    let bucketType : String :=
      if a.bucket_duration_hours = 1 then "Hourly"
      else if a.bucket_duration_hours = 24 then "Daily"
      else if a.bucket_duration_hours = 168 then "Weekly"
      else "Time Bucket"
    let lines := (a.items.enum.take 10).map fun (i, item) =>
      toString (i + 1) ++ ". " ++ extractTitleFromItem item ++ " (" ++ item.uri ++ ")"
    bucketType ++ " Digest for " ++ a.user_id ++ "\n\nCollected " ++
      toString a.items.length ++ " items:\n\n" ++ String.intercalate "\n" lines

/-- Model of `Aggregator::aggregator_type` for the time bucket (time_bucket.rs:97-99). -/
def TimeBucketAggregator.aggregatorType (a : TimeBucketAggregator) : String :=
  "time_bucket_" ++ toString a.bucket_duration_hours ++ "h"

/-- Model of `TimeBucketAggregator::produce_output` (time_bucket.rs:121-151).
The `Err` early return of the source leaves `self` untouched; that is modelled
by returning `none` paired with the unchanged aggregator. -/
def TimeBucketAggregator.produceOutput (a : TimeBucketAggregator) (now : Int) :
    Option AggregatedOutput × TimeBucketAggregator :=
  if ¬ a.shouldProduceOutput now then (none, a)
  else
    let summary := a.createSummary
    let items := a.items
    let output : AggregatedOutput :=
      { user_id := a.user_id
        aggregator_type := a.aggregatorType
        items := items
        summary := some summary
        created_at := now
        metadata := [("bucket_duration_hours", toString a.bucket_duration_hours),
                     ("items_count", toString items.length)] }
    (some output, { a with items := [], last_output_time := some output.created_at })

/-! ## Scheduler (`rss-aggregator/src/feed_manager.rs`, `get_feeds_to_fetch`) -/

/-- One row of the `feeds` table as read by `get_feeds_to_fetch`
(feed_manager.rs:162-177): `id`, `last_fetch_time`, `update_frequency_hours`,
`error_count`, restricted by `is_active`. -/
structure FeedRow where
  id : Nat
  is_active : Bool
  last_fetch_time : Option Int
  update_frequency_hours : Option Int
  error_count : Nat
deriving Repr, DecidableEq

/-- The `ScheduleInfo` struct of `types.rs` (times in seconds). -/
structure ScheduleInfo where
  feed_id : Nat
  next_fetch_time : Int
  priority : Nat
deriving Repr, DecidableEq

/-- The `update_frequency_hours.unwrap_or(1)` step of feed_manager.rs:187. -/
def FeedRow.frequencyHours (r : FeedRow) : Int :=
  r.update_frequency_hours.getD 1

/-- Model of the `next_fetch_time` computation of feed_manager.rs:190-201:
`last + Duration::hours(freq * 2^min(error_count, 5))` under failure backoff,
`last + Duration::hours(freq)` otherwise, `now` when never fetched. -/
def FeedRow.nextFetchTime (r : FeedRow) (now : Int) : Int :=
  match r.last_fetch_time with
  | some last =>
    let interval : Int :=
      if r.error_count > 0 then 3600 * (r.frequencyHours * 2 ^ (min r.error_count 5))
      else 3600 * r.frequencyHours
    last + interval
  | none => now

/-- Model of the priority assignment of feed_manager.rs:203-209 (the
`error_count > 0` test precedes the never-fetched test, as in the source). -/
def FeedRow.priority (r : FeedRow) : Nat :=
  if r.error_count > 0 then 50
  else if r.last_fetch_time = none then 255
  else 150

/-- The `CASE` key of the SQL `ORDER BY` in feed_manager.rs:167-172:
0 when never fetched, 1 when failing, 2 otherwise. -/
def FeedRow.sqlCaseKey (r : FeedRow) : Nat :=
  if r.last_fetch_time = none then 0
  else if r.error_count > 0 then 1
  else 2

/-- Ordering for `last_fetch_time ASC NULLS FIRST`: `NULL` sorts before every
timestamp. -/
def lastFetchLE : Option Int → Option Int → Prop
  | none, _ => True
  | some _, none => False
  | some x, some y => x ≤ y

instance : DecidableRel lastFetchLE := fun a b => by
  unfold lastFetchLE; cases a <;> cases b <;> infer_instance

/-- The SQL ordering of feed_manager.rs:167-173: by `CASE` bucket, then by
`last_fetch_time ASC NULLS FIRST` (ties are left in table order, a
determinization of the unspecified SQL tie order). -/
def sqlOrder (a b : FeedRow) : Prop :=
  a.sqlCaseKey < b.sqlCaseKey ∨
    (a.sqlCaseKey = b.sqlCaseKey ∧ lastFetchLE a.last_fetch_time b.last_fetch_time)

instance : DecidableRel sqlOrder := fun a b => by unfold sqlOrder; infer_instance

/-- The final in-memory ordering of feed_manager.rs:221-224:
`b.priority.cmp(&a.priority).then_with(|| a.next_fetch_time.cmp(&b.next_fetch_time))`,
i.e. priority descending then next fetch time ascending. -/
def schedOrder (a b : ScheduleInfo) : Prop :=
  b.priority < a.priority ∨ (a.priority = b.priority ∧ a.next_fetch_time ≤ b.next_fetch_time)

instance : DecidableRel schedOrder := fun a b => by unfold schedOrder; infer_instance

instance : IsTotal ScheduleInfo schedOrder :=
  ⟨fun a b => by unfold schedOrder; omega⟩

instance : IsTrans ScheduleInfo schedOrder :=
  ⟨fun a b c => by unfold schedOrder; omega⟩

/-- Model of `FeedManager::get_feeds_to_fetch` (feed_manager.rs:159-227) over
an in-memory `feeds` table: the SQL selects active rows, orders them, applies
`LIMIT` (before any due test), then the Rust code computes `next_fetch_time`
and `priority` per row, keeps the due rows (`next_fetch_time ≤ now`), and
stable-sorts the result by `schedOrder`. Both sorts are modelled by the
stable `List.insertionSort`. -/
def getFeedsToFetch (table : List FeedRow) (now : Int) (limit : Nat) : List ScheduleInfo :=
  let rows := (((table.filter (·.is_active)).insertionSort sqlOrder).take limit)
  let schedule := rows.filterMap fun r =>
    let next := r.nextFetchTime now
    if next ≤ now then
      some { feed_id := r.id, next_fetch_time := next, priority := r.priority }
    else none
  schedule.insertionSort schedOrder

/-! ## Item store (`rss-aggregator/src/feed_manager.rs`, `store_feed_entries`)

The `feed_entries` table (schema of `tests/integration_test.rs:288-338`)
carries a unique index on `(feed_id, url)` and a partial unique index on
`(feed_id, guid) WHERE guid IS NOT NULL`. The insert of
`store_feed_entries` names only `(feed_id, url)` as its `ON CONFLICT`
arbiter, so a `(feed_id, url)` collision is skipped silently
(`rows_affected = 0`) while a `(feed_id, guid)` collision on a fresh url
raises a unique violation, which the `?` operator turns into an `Err`
return of the whole call. -/

/-- The columns of a `FeedEntry` row relevant to the uniqueness behaviour
of `store_feed_entries` (the random `id` primary key and payload columns
never conflict and are omitted). -/
structure EntryRow where
  feed_id : Nat
  guid : Option String
  url : String
deriving Repr, DecidableEq

/-- Model of one `INSERT ... ON CONFLICT (feed_id, url) DO NOTHING` against
the `feed_entries` table: `some (false, db)` when skipped by the arbiter,
`some (true, db ++ [e])` when inserted, and `none` when the partial unique
index on `(feed_id, guid)` raises instead. -/
def insertEntrySql (db : List EntryRow) (e : EntryRow) : Option (Bool × List EntryRow) :=
  if db.any (fun r => r.feed_id = e.feed_id ∧ r.url = e.url) then
    some (false, db)
  else if db.any (fun r => r.feed_id = e.feed_id ∧ e.guid ≠ none ∧ r.guid = e.guid) then
    none
  else
    some (true, db ++ [e])

/-- Model of `FeedManager::store_feed_entries` (feed_manager.rs:304-337):
entries are inserted one at a time (each statement committing on its own);
the count of actually inserted rows is returned, and the first unique
violation aborts the loop with an `Err` (modelled as `none`). -/
def storeFeedEntries (db : List EntryRow) : List EntryRow → Option (Nat × List EntryRow)
  | [] => some (0, db)
  | e :: rest =>
    match insertEntrySql db e with
    | none => none
    | some (inserted, db2) =>
      match storeFeedEntries db2 rest with
      | none => none
      | some (n, db3) => some ((if inserted then 1 else 0) + n, db3)

/-! ## RSS fetcher response handling (`rss-aggregator/src/fetcher.rs`) -/

/-- One HTTP response as consumed by `fetch_feed` (fetcher.rs:82-168). -/
structure HttpResponse where
  status : Nat
  content_length : Option Nat
  etag_header : Option String
  last_modified_header : Option String
  body : String
deriving Repr, DecidableEq

/-- The fields of `FetchResult` (types.rs:44-56) determined by the response
handling under verification (`feed_id`, timings are orthogonal and omitted). -/
structure FetchOutcome where
  success : Bool
  entries_found : Nat
  new_entries : Nat
  error : Option String
  http_status : Option Nat
  etag : Option String
  last_modified : Option String
  content : Option String
deriving Repr, DecidableEq

/-- Model of the response-handling arm of `Fetcher::fetch_feed`
(fetcher.rs:83-168) for one received response: HTTP 304 returns success with
zero entries and the request's own cursors echoed back; a non-2xx status is
a retriable failure (`none`, the retry loop continues); on 2xx the
`Content-Length` header, when present, is divided down to whole mebibytes
and compared against `max_feed_size_mb`, rejecting with a "Feed too large"
failure; otherwise the body is returned as content. There is no size check
on the streamed body itself. -/
def handleResponse (maxFeedSizeMb : Nat) (sentEtag sentLastModified : Option String)
    (resp : HttpResponse) : Option FetchOutcome :=
  if resp.status = 304 then
    some { success := true, entries_found := 0, new_entries := 0, error := none
           http_status := some resp.status
           etag := sentEtag, last_modified := sentLastModified, content := none }
  else if ¬ (200 ≤ resp.status ∧ resp.status ≤ 299) then
    none
  else
    match resp.content_length with
    | some cl =>
      if cl / (1024 * 1024) > maxFeedSizeMb then
        some { success := false, entries_found := 0, new_entries := 0
               error := some ("Feed too large: " ++ toString (cl / (1024 * 1024)) ++ "MB")
               http_status := some resp.status
               etag := resp.etag_header, last_modified := resp.last_modified_header
               content := none }
      else
        some { success := true, entries_found := 0, new_entries := 0, error := none
               http_status := some resp.status
               etag := resp.etag_header, last_modified := resp.last_modified_header
               content := some resp.body }
    | none =>
      some { success := true, entries_found := 0, new_entries := 0, error := none
             http_status := some resp.status
             etag := resp.etag_header, last_modified := resp.last_modified_header
             content := some resp.body }

/-! ## RSS source poll interval (`rss-aggregator/src/sources/rss_feed.rs`) -/

/-- Model of the default poll interval selection in `RssFeedSource::new`
(rss_feed.rs:36-42): 15 min for urls containing `news` or `breaking`,
1 h for `blog` or `post`, 30 min otherwise (all in milliseconds). -/
def defaultPollIntervalMs (url : String) : Nat :=
  if containsSub url.toList "news".toList || containsSub url.toList "breaking".toList then
    900000
  else if containsSub url.toList "blog".toList || containsSub url.toList "post".toList then
    3600000
  else
    1800000

/-- The `poll_interval_ms` field assigned by `RssFeedSource::new`
(rss_feed.rs:54): the explicit argument when given, else the url default. -/
def rssFeedPollIntervalMs (url : String) (pollIntervalMs : Option Nat) : Nat :=
  pollIntervalMs.getD (defaultPollIntervalMs url)

/-! ## IMAP email ingestion (`email-ingestion/src/email_ingester.rs`) -/

/-- The `EmailCredential` row of `email-ingestion/src/database.rs`. -/
structure EmailCredential where
  email_address : String
  password : String
  last_sync_date : Option Int
deriving Repr, DecidableEq

/-- The result of `Url::parse` on an email URI, as consumed by
`EmailIngesterConfig::from_uri_and_credentials`: scheme, user info, host,
port, path and decoded query pairs. -/
structure ParsedUri where
  scheme : String
  username : String
  host : Option String
  port : Option Nat
  path : String
  query_pairs : List (String × String)
deriving Repr, DecidableEq

/-- The `EmailIngesterConfig` struct (email_ingester.rs:8-19). -/
structure EmailIngesterConfig where
  server : String
  port : Nat
  username : String
  password : String
  mailbox : String
  use_tls : Bool
  accept_invalid_certs : Bool
  accept_invalid_hostnames : Bool
  last_sync_date : Option Int
deriving Repr, DecidableEq

/-- Model of Rust `value.parse::<bool>()`, which accepts exactly `"true"`
and `"false"`. -/
def parseRustBool (s : String) : Option Bool :=
  if s = "true" then some true else if s = "false" then some false else none

/-- Query lookup of `query_pairs().find(|(key, _)| key == k)` followed by
`.map(|(_, value)| value.parse().unwrap_or(dflt)).unwrap_or(dflt)`. -/
def queryBool (pairs : List (String × String)) (k : String) (dflt : Bool) : Bool :=
  match pairs.find? (fun p => p.1 = k) with
  | some p => (parseRustBool p.2).getD dflt
  | none => dflt

/-- Model of `EmailIngesterConfig::from_uri_and_credentials`
(email_ingester.rs:24-89): validates the `email` scheme and host, defaults
the port to 993 and the mailbox to `INBOX`, resolves the username from the
URI user part falling back to the credential's email address, and takes the
password from the credential row. -/
def fromUriAndCredentials (uri : ParsedUri) (credentials : EmailCredential) :
    Except String EmailIngesterConfig :=
  if uri.scheme ≠ "email" then
    Except.error ("URI must use email scheme, got: " ++ uri.scheme)
  else
    match uri.host with
    | none => Except.error "No server specified in URI"
    | some server =>
      let port := uri.port.getD 993
      let username := if uri.username ≠ "" then uri.username else credentials.email_address
      let mailbox :=
        let path := String.mk (uri.path.toList.dropWhile (· = '/'))
        if path = "" then "INBOX" else path
      Except.ok
        { server := server
          port := port
          username := username
          password := credentials.password
          mailbox := mailbox
          use_tls := queryBool uri.query_pairs "tls" true
          accept_invalid_certs := queryBool uri.query_pairs "accept_invalid_certs" false
          accept_invalid_hostnames := queryBool uri.query_pairs "accept_invalid_hostnames" false
          last_sync_date := credentials.last_sync_date }

/-- The username/password pair that `fetch_from_imap_server` actually passes
to IMAP `LOGIN` (email_ingester.rs:140): the literals `"test"`/`"testpass"`,
independent of the configuration. -/
def imapLoginArguments (_config : EmailIngesterConfig) : String × String :=
  ("test", "testpass")

/-! ## Helper lemmas about the string utilities -/

theorem prefixOfB_ex {n l : List Char} (h : prefixOfB n l = true) : ∃ t, l = n ++ t := by
  induction n generalizing l with
  | nil => exact ⟨l, rfl⟩
  | cons a as ih =>
    cases l with
    | nil => simp [prefixOfB] at h
    | cons b bs =>
      by_cases hab : a = b
      · simp only [prefixOfB, if_pos hab] at h
        obtain ⟨t, ht⟩ := ih h
        exact ⟨t, by simp [hab, ht]⟩
      · simp [prefixOfB, if_neg hab] at h

theorem prefixOfB_refl_append {n t : List Char} : prefixOfB n (n ++ t) = true := by
  induction n with
  | nil => rfl
  | cons a as ih => simpa [prefixOfB] using ih

theorem containsSub_nil_needle (t : List Char) : containsSub t [] = true := by
  cases t <;> simp [containsSub, prefixOfB]

theorem containsSub_here {n t : List Char} : containsSub (n ++ t) n = true := by
  cases n with
  | nil => simpa using containsSub_nil_needle t
  | cons c cs =>
    simp only [List.cons_append, containsSub, Bool.or_eq_true]
    exact Or.inl prefixOfB_refl_append

theorem containsSub_cons_of {n t : List Char} (a : Char) (h : containsSub t n = true) :
    containsSub (a :: t) n = true := by
  simp only [containsSub, Bool.or_eq_true]
  exact Or.inr h

theorem containsSub_ex {h n : List Char} (hc : containsSub h n = true) :
    ∃ s t, h = s ++ n ++ t := by
  induction h with
  | nil =>
    refine ⟨[], [], ?_⟩
    simp only [containsSub, List.isEmpty_iff] at hc
    simp [hc]
  | cons a as ih =>
    simp only [containsSub, Bool.or_eq_true] at hc
    rcases hc with hc | hc
    · obtain ⟨t, ht⟩ := prefixOfB_ex hc
      exact ⟨[], t, by simp [ht]⟩
    · obtain ⟨s, t, hst⟩ := ih hc
      exact ⟨a :: s, t, by simp [hst]⟩

theorem containsSub_of_ex {h n : List Char} (he : ∃ s t, h = s ++ n ++ t) :
    containsSub h n = true := by
  obtain ⟨s, t, rfl⟩ := he
  induction s with
  | nil => exact containsSub_here
  | cons a as ih => exact containsSub_cons_of a ih

theorem afterFirst_ex {nd h r : List Char} (ha : afterFirst nd h = some r) :
    ∃ s, h = s ++ r := by
  induction h with
  | nil =>
    by_cases hnd : nd.isEmpty
    · have : some ([] : List Char) = some r := by simpa [afterFirst, hnd] using ha
      have hr : r = [] := by simpa using this.symm
      exact ⟨[], by simp [hr]⟩
    · simp [afterFirst, hnd] at ha
  | cons a as ih =>
    by_cases hpre : prefixOfB nd (a :: as) = true
    · have hr : List.drop nd.length (a :: as) = r := by
        simpa [afterFirst, hpre] using ha
      obtain ⟨t, ht⟩ := prefixOfB_ex hpre
      refine ⟨nd, ?_⟩
      rw [← hr, ht, List.drop_left]
    · have ha' : afterFirst nd as = some r := by
        simpa [afterFirst, hpre] using ha
      obtain ⟨s, hs⟩ := ih ha'
      exact ⟨a :: s, by simp [hs]⟩

theorem takeUntil_ex {c : Char} {l p : List Char} (ht : takeUntil c l = some p) :
    ∃ t, l = p ++ t := by
  induction l generalizing p with
  | nil => simp [takeUntil] at ht
  | cons a as ih =>
    by_cases hac : a = c
    · have : some ([] : List Char) = some p := by simpa [takeUntil, hac] using ht
      have hp : p = [] := by simpa using this.symm
      exact ⟨a :: as, by simp [hp]⟩
    · have ht' : (takeUntil c as).map (a :: ·) = some p := by
        simpa [takeUntil, hac] using ht
      cases hrec : takeUntil c as with
      | none => rw [hrec] at ht'; simp at ht'
      | some q =>
        rw [hrec] at ht'
        have hp : p = a :: q := by simpa using ht'.symm
        obtain ⟨t, htl⟩ := ih hrec
        exact ⟨t, by simp [hp, htl]⟩

theorem titleSliceLower_inside {text title kw : List Char}
    (hts : titleSliceLower text = some title)
    (hkw : containsSub title kw = true) : containsSub text kw = true := by
  unfold titleSliceLower at hts
  cases haf : afterFirst ("title: ".toList) text with
  | none => rw [haf] at hts; exact absurd hts (by simp)
  | some portion =>
    rw [haf] at hts
    have htk : takeUntil '\n' portion = some title := hts
    obtain ⟨s, hs⟩ := afterFirst_ex haf
    obtain ⟨t, htl⟩ := takeUntil_ex htk
    obtain ⟨u, v, huv⟩ := containsSub_ex hkw
    refine containsSub_of_ex ⟨s ++ u, v ++ t, ?_⟩
    rw [hs, htl, huv]
    simp [List.append_assoc]

theorem foldl_addIf {α : Type} (p : α → Bool) (c : ℚ) :
    ∀ (l : List α) (init : ℚ),
      l.foldl (fun s x => if p x then s + c else s) init = init + c * l.countP p := by
  intro l
  induction l with
  | nil => intro init; simp
  | cons a as ih =>
    intro init
    cases hp : p a with
    | true =>
      simp [List.foldl_cons, hp, ih, List.countP_cons]
      ring
    | false =>
      simp [List.foldl_cons, hp, ih, List.countP_cons]

/-! ## Claim C10: produce_output on a non-ready aggregator -/

/-- C10: calling `produce_output` on a time-bucket aggregator that is not
ready (`should_produce_output()` is false, i.e. the buffer is empty or the
bucket duration has not elapsed since `last_output_time`) returns an error
and leaves the aggregator state unchanged: buffered items and
`last_output_time` are exactly as before the call. -/
theorem C10_produce_output_not_ready_frame (a : TimeBucketAggregator) (now : Int)
    (h : a.shouldProduceOutput now = false) :
    a.produceOutput now = (none, a) := by
  unfold TimeBucketAggregator.produceOutput
  simp [h]

/-- Witness for C10 at a freshly created (hence empty, not ready) aggregator. -/
theorem C10_witness :
    (TimeBucketAggregator.new "u1").shouldProduceOutput 0 = false ∧
    (TimeBucketAggregator.new "u1").produceOutput 0 = (none, TimeBucketAggregator.new "u1") :=
  ⟨rfl, C10_produce_output_not_ready_frame (TimeBucketAggregator.new "u1") 0 rfl⟩

/-! ## Claim C3: exponential backoff bound -/

/-- C3: for every source with `last_fetch_instant` set and
`consecutive_error_count = k > 0`, the computed `next_fetch_instant`
satisfies `next_fetch_instant − last_fetch_instant ≥ base_interval ×
2^min(k, 5)` (the gap equals that product); with `k = 0` the gap is exactly
`base_interval`; a source never fetched is due immediately
(`next_fetch_instant = now`). The base interval is
`update_frequency_hours.unwrap_or(1)` hours, i.e. `3600 * frequencyHours`
seconds. -/
theorem C3_exponential_backoff :
    (∀ (r : FeedRow) (now last : Int), r.last_fetch_time = some last → 0 < r.error_count →
      r.nextFetchTime now - last ≥ 3600 * r.frequencyHours * 2 ^ (min r.error_count 5)) ∧
    (∀ (r : FeedRow) (now last : Int), r.last_fetch_time = some last → r.error_count = 0 →
      r.nextFetchTime now - last = 3600 * r.frequencyHours) ∧
    (∀ (r : FeedRow) (now : Int), r.last_fetch_time = none → r.nextFetchTime now = now) := by
  refine ⟨?_, ?_, ?_⟩
  · intro r now last hlast herr
    have key : r.nextFetchTime now
        = last + 3600 * (r.frequencyHours * 2 ^ (min r.error_count 5)) := by
      simp only [FeedRow.nextFetchTime, hlast]
      rw [if_pos herr]
    have hXY : 3600 * (r.frequencyHours * 2 ^ (min r.error_count 5))
        = 3600 * r.frequencyHours * 2 ^ (min r.error_count 5) := by ring
    rw [key]
    linarith [hXY]
  · intro r now last hlast herr
    have hng : ¬ (r.error_count > 0) := by omega
    have key : r.nextFetchTime now = last + 3600 * r.frequencyHours := by
      simp only [FeedRow.nextFetchTime, hlast]
      rw [if_neg hng]
    rw [key]
    ring
  · intro r now hlast
    simp only [FeedRow.nextFetchTime, hlast]

/-- Sample row for C3: three consecutive errors, 2-hour base interval. -/
def c3RowBackoff : FeedRow :=
  { id := 1, is_active := true, last_fetch_time := some 0,
    update_frequency_hours := some 2, error_count := 3 }

/-- Sample row for C3: no errors. -/
def c3RowFresh : FeedRow :=
  { id := 2, is_active := true, last_fetch_time := some 0,
    update_frequency_hours := some 2, error_count := 0 }

/-- Sample row for C3: never fetched. -/
def c3RowNever : FeedRow :=
  { id := 3, is_active := true, last_fetch_time := none,
    update_frequency_hours := none, error_count := 0 }

/-- Witness for C3 at the three sample rows. -/
theorem C3_witness :
    c3RowBackoff.nextFetchTime 100 - 0
      ≥ 3600 * c3RowBackoff.frequencyHours * 2 ^ (min c3RowBackoff.error_count 5) ∧
    c3RowFresh.nextFetchTime 100 - 0 = 3600 * c3RowFresh.frequencyHours ∧
    c3RowNever.nextFetchTime 100 = 100 :=
  ⟨C3_exponential_backoff.1 c3RowBackoff 100 0 rfl (by decide),
   C3_exponential_backoff.2.1 c3RowFresh 100 0 rfl rfl,
   C3_exponential_backoff.2.2 c3RowNever 100 rfl⟩

/-! ## Claim C6: HTTP 304 keeps cursors -/

/-- C6: for any RSS fetch whose HTTP response is 304, the fetch succeeds
with zero new items and the cached `etag`/`last_modified` values are left
unchanged — the result carries back exactly the cursors that were sent. -/
theorem C6_not_modified_preserves_cursors (maxMb : Nat) (sentEtag sentLm : Option String)
    (resp : HttpResponse) (h304 : resp.status = 304) :
    handleResponse maxMb sentEtag sentLm resp =
      some { success := true, entries_found := 0, new_entries := 0, error := none,
             http_status := some resp.status, etag := sentEtag, last_modified := sentLm,
             content := none } := by
  unfold handleResponse
  rw [if_pos h304]

/-- Sample 304 response for C6. -/
def c6Resp : HttpResponse :=
  { status := 304, content_length := none, etag_header := none,
    last_modified_header := none, body := "" }

/-- Witness for C6 at a concrete 304 response with cached cursors present. -/
theorem C6_witness :
    handleResponse 10 (some "etag-1") (some "lm-1") c6Resp =
      some { success := true, entries_found := 0, new_entries := 0, error := none,
             http_status := some c6Resp.status, etag := some "etag-1",
             last_modified := some "lm-1", content := none } :=
  C6_not_modified_preserves_cursors 10 (some "etag-1") (some "lm-1") c6Resp rfl

/-! ## Claim C7: feed size cap -/

/-- The success outcome produced by `fetch_feed` on a 2xx response that
passes the size check (fetcher.rs:148-163). -/
def fetchOkOutcome (resp : HttpResponse) : FetchOutcome :=
  { success := true, entries_found := 0, new_entries := 0, error := none,
    http_status := some resp.status, etag := resp.etag_header,
    last_modified := resp.last_modified_header, content := some resp.body }

/-- The failure outcome produced by `fetch_feed` when the `Content-Length`
check trips (fetcher.rs:129-145). -/
def fetchTooLargeOutcome (resp : HttpResponse) (cl : Nat) : FetchOutcome :=
  { success := false, entries_found := 0, new_entries := 0,
    error := some ("Feed too large: " ++ toString (cl / (1024 * 1024)) ++ "MB"),
    http_status := some resp.status, etag := resp.etag_header,
    last_modified := resp.last_modified_header, content := none }

/-- A 200 response whose body is one byte larger than `max_feed_size` for
`max_feed_size_mb = 1` (one byte past 1 MiB). -/
def c7Resp : HttpResponse :=
  { status := 200, content_length := some (1 * 1024 * 1024 + 1), etag_header := none,
    last_modified_header := none, body := "body" }

/-- Counterexample to C7: a body one byte larger than `max_feed_size`
(`Content-Length = 1 MiB + 1` against `max_feed_size_mb = 1`) is accepted
with success, not rejected with `FeedTooLarge`, because the code divides the
`Content-Length` down to whole mebibytes (`1048577 / 1048576 = 1`) before
comparing with `>`. -/
theorem C7_counterexample :
    c7Resp.content_length = some (1 * 1024 * 1024 + 1) ∧
    handleResponse 1 none none c7Resp = some (fetchOkOutcome c7Resp) := by
  exact ⟨rfl, by decide⟩

/-- C7 (amended): the size cap is enforced only through the `Content-Length`
header and only at whole-mebibyte granularity. On a 2xx response: without
`Content-Length` the body is always accepted; with `Content-Length = cl`
the body is accepted iff `cl < (max_feed_size_mb + 1) × 2^20` and rejected
with the "Feed too large" failure iff `cl ≥ (max_feed_size_mb + 1) × 2^20`.
No size check is applied to the streamed body itself. -/
theorem C7_amended_content_length_cap (maxMb : Nat) (e lm : Option String)
    (resp : HttpResponse) (h2xx : 200 ≤ resp.status ∧ resp.status ≤ 299) :
    (resp.content_length = none →
      handleResponse maxMb e lm resp = some (fetchOkOutcome resp)) ∧
    (∀ cl, resp.content_length = some cl → cl < (maxMb + 1) * 1048576 →
      handleResponse maxMb e lm resp = some (fetchOkOutcome resp)) ∧
    (∀ cl, resp.content_length = some cl → (maxMb + 1) * 1048576 ≤ cl →
      handleResponse maxMb e lm resp = some (fetchTooLargeOutcome resp cl)) := by
  have h304 : ¬ (resp.status = 304) := by omega
  have h2 : ¬ ¬ (200 ≤ resp.status ∧ resp.status ≤ 299) := not_not_intro h2xx
  refine ⟨?_, ?_, ?_⟩
  · intro hnone
    unfold handleResponse
    rw [if_neg h304, if_neg h2, hnone]
    rfl
  · intro cl hcl hlt
    have hdiv : cl / (1024 * 1024) ≤ maxMb := by
      have h1 : (0 : Nat) < 1024 * 1024 := by norm_num
      have := (Nat.div_lt_iff_lt_mul h1).mpr (by omega : cl < (maxMb + 1) * (1024 * 1024))
      omega
    unfold handleResponse
    rw [if_neg h304, if_neg h2, hcl]
    simp only [fetchOkOutcome]
    rw [if_neg (by omega : ¬ (cl / (1024 * 1024) > maxMb))]
  · intro cl hcl hge
    have hdiv : maxMb < cl / (1024 * 1024) := by
      have h1 : (0 : Nat) < 1024 * 1024 := by norm_num
      have := (Nat.le_div_iff_mul_le h1).mpr
        (by omega : (maxMb + 1) * (1024 * 1024) ≤ cl)
      omega
    unfold handleResponse
    rw [if_neg h304, if_neg h2, hcl]
    simp only [fetchTooLargeOutcome]
    rw [if_pos hdiv]

/-- A small 200 response for the C7 witness. -/
def c7SmallResp : HttpResponse :=
  { status := 200, content_length := some 3, etag_header := none,
    last_modified_header := none, body := "xml" }

/-- Witness for C7 (amended) at a concrete small response. -/
theorem C7_witness :
    (200 ≤ c7SmallResp.status ∧ c7SmallResp.status ≤ 299) ∧
    handleResponse 1 none none c7SmallResp = some (fetchOkOutcome c7SmallResp) :=
  ⟨by decide,
   (C7_amended_content_length_cap 1 none none c7SmallResp (by decide)).2.1 3 rfl (by decide)⟩

/-! ## Claim C8: default RSS poll interval -/

/-- Counterexample to C8: the URI `https://example.test/news/rss.xml`
contains the substring `news`, so `RssFeedSource::new` assigns the
15-minute news default (900000 ms), not the generic 30-minute default
(1800000 ms) that the claim asserts. -/
theorem C8_counterexample :
    rssFeedPollIntervalMs "https://example.test/news/rss.xml" none = 900000 ∧
    (900000 : Nat) ≠ 1800000 := by
  exact ⟨by decide, by decide⟩

/-- C8 (amended): a registered RSS source with URI
`https://example.test/news/rss.xml` and no explicit interval receives the
news/breaking default of 15 minutes (900000 ms), so after a successful
fetch it is next due at `now + 15 min`. -/
theorem C8_amended_news_default :
    rssFeedPollIntervalMs "https://example.test/news/rss.xml" none = 900000 := by
  decide

/-! ## Claim C2: IMAP LOGIN credentials -/

/-- C2 (code bug evaluation): for the email source
`email://alice@mail.example.test:3993/INBOX?tls=true` with stored credential
`alice@example.test` / `secret`, the configuration resolves
`username = "alice"` (URI user part) and `password = "secret"` (credential
row) as documented, but `fetch_from_imap_server` issues LOGIN with the
literals `"test"`/`"testpass"`, not with the configured credential. -/
theorem C2_imap_login_ignores_configured_credential :
    fromUriAndCredentials
      { scheme := "email", username := "alice", host := some "mail.example.test",
        port := some 3993, path := "/INBOX", query_pairs := [("tls", "true")] }
      { email_address := "alice@example.test", password := "secret", last_sync_date := none }
      = Except.ok
        { server := "mail.example.test", port := 3993, username := "alice",
          password := "secret", mailbox := "INBOX", use_tls := true,
          accept_invalid_certs := false, accept_invalid_hostnames := false,
          last_sync_date := none } ∧
    ∀ cfg : EmailIngesterConfig, imapLoginArguments cfg ≠ ("alice", "secret") := by
  constructor
  · rfl
  · intro cfg
    unfold imapLoginArguments
    decide

/-! ## Claim C1: store idempotence and uniqueness keys -/

/-- First entry of the C1 counterexample batch. -/
def c1Entry1 : EntryRow := { feed_id := 1, guid := some "guid-1", url := "https://feed.test/a" }

/-- Second entry of the C1 counterexample batch: same `(feed_id, guid)`,
different `url`. -/
def c1Entry2 : EntryRow := { feed_id := 1, guid := some "guid-1", url := "https://feed.test/b" }

/-- Counterexample to C1: a `(source_id, guid)` collision on a fresh url is
not dropped silently — the partial unique index on `(feed_id, guid)` is not
the `ON CONFLICT` arbiter, so the second insert raises a unique violation
and `store_feed_entries` returns an error (`none`) instead of a count. -/
theorem C1_counterexample :
    storeFeedEntries [] [c1Entry1, c1Entry2] = none := by
  decide

theorem insertEntrySql_cases {db db2 : List EntryRow} {e : EntryRow} {b : Bool}
    (h : insertEntrySql db e = some (b, db2)) :
    (b = false ∧ db2 = db ∧ ∃ r ∈ db, r.feed_id = e.feed_id ∧ r.url = e.url) ∨
    (b = true ∧ db2 = db ++ [e] ∧
      ∀ r ∈ db, ¬ (r.feed_id = e.feed_id ∧ r.url = e.url)) := by
  unfold insertEntrySql at h
  split at h
  · rename_i hcond
    simp only [Option.some.injEq, Prod.mk.injEq] at h
    refine Or.inl ⟨h.1.symm, h.2.symm, ?_⟩
    rw [List.any_eq_true] at hcond
    obtain ⟨r, hr, hp⟩ := hcond
    exact ⟨r, hr, of_decide_eq_true hp⟩
  · rename_i hcond
    split at h
    · exact absurd h (by simp)
    · simp only [Option.some.injEq, Prod.mk.injEq] at h
      refine Or.inr ⟨h.1.symm, h.2.symm, ?_⟩
      intro r hr hmatch
      exact hcond (List.any_eq_true.mpr ⟨r, hr, decide_eq_true hmatch⟩)

theorem insertEntrySql_conflict {db : List EntryRow} {e : EntryRow}
    (h : ∃ r ∈ db, r.feed_id = e.feed_id ∧ r.url = e.url) :
    insertEntrySql db e = some (false, db) := by
  unfold insertEntrySql
  rw [if_pos]
  rw [List.any_eq_true]
  obtain ⟨r, hr, hp⟩ := h
  exact ⟨r, hr, decide_eq_true hp⟩

theorem insertEntrySql_key {db db2 : List EntryRow} {e : EntryRow} {b : Bool}
    (h : insertEntrySql db e = some (b, db2)) :
    ∃ r ∈ db2, r.feed_id = e.feed_id ∧ r.url = e.url := by
  rcases insertEntrySql_cases h with ⟨_, rfl, hex⟩ | ⟨_, rfl, _⟩
  · exact hex
  · exact ⟨e, List.mem_append_right _ (by simp), rfl, rfl⟩

theorem insertEntrySql_pairwise {db db2 : List EntryRow} {e : EntryRow} {b : Bool}
    (h : insertEntrySql db e = some (b, db2))
    (hp : db.Pairwise fun x y => ¬ (x.feed_id = y.feed_id ∧ x.url = y.url)) :
    db2.Pairwise fun x y => ¬ (x.feed_id = y.feed_id ∧ x.url = y.url) := by
  rcases insertEntrySql_cases h with ⟨_, rfl, _⟩ | ⟨_, rfl, hnone⟩
  · exact hp
  · rw [List.pairwise_append]
    refine ⟨hp, List.pairwise_singleton _ _, ?_⟩
    intro x hx y hy
    have : y = e := by simpa using hy
    subst this
    exact hnone x hx

theorem storeFeedEntries_cons_none {db : List EntryRow} {e : EntryRow}
    {rest : List EntryRow} (h : insertEntrySql db e = none) :
    storeFeedEntries db (e :: rest) = none := by
  unfold storeFeedEntries
  rw [h]

theorem storeFeedEntries_cons_rec_none {db db2 : List EntryRow} {e : EntryRow}
    {rest : List EntryRow} {b : Bool} (hins : insertEntrySql db e = some (b, db2))
    (hrec : storeFeedEntries db2 rest = none) :
    storeFeedEntries db (e :: rest) = none := by
  rw [storeFeedEntries.eq_2, hins]
  simp only [hrec]

theorem storeFeedEntries_cons_rec_some {db db2 db3 : List EntryRow} {e : EntryRow}
    {rest : List EntryRow} {b : Bool} {m : Nat}
    (hins : insertEntrySql db e = some (b, db2))
    (hrec : storeFeedEntries db2 rest = some (m, db3)) :
    storeFeedEntries db (e :: rest) = some ((if b then 1 else 0) + m, db3) := by
  rw [storeFeedEntries.eq_2, hins]
  simp only [hrec]

theorem storeFeedEntries_ext : ∀ (es db db' : List EntryRow) (n : Nat),
    storeFeedEntries db es = some (n, db') → ∃ ext, db' = db ++ ext := by
  intro es
  induction es with
  | nil =>
    intro db db' n h
    simp only [storeFeedEntries, Option.some.injEq, Prod.mk.injEq] at h
    exact ⟨[], by simp [h.2.symm]⟩
  | cons e rest ih =>
    intro db db' n h
    cases hins : insertEntrySql db e with
    | none => rw [storeFeedEntries_cons_none hins] at h; exact absurd h (by simp)
    | some p =>
      obtain ⟨b, db2⟩ := p
      cases hrec : storeFeedEntries db2 rest with
      | none => rw [storeFeedEntries_cons_rec_none hins hrec] at h; exact absurd h (by simp)
      | some q =>
        obtain ⟨m, db3⟩ := q
        rw [storeFeedEntries_cons_rec_some hins hrec] at h
        simp only [Option.some.injEq, Prod.mk.injEq] at h
        obtain ⟨ext2, hext2⟩ := ih db2 db3 m hrec
        rcases insertEntrySql_cases hins with ⟨_, rfl, _⟩ | ⟨_, rfl, _⟩
        · exact ⟨ext2, by rw [← h.2, hext2]⟩
        · exact ⟨[e] ++ ext2, by rw [← h.2, hext2, List.append_assoc]⟩

/-- C1 (amended): `store_feed_entries` is idempotent on the `(feed_id, url)`
key — after a successful store of a batch, re-storing the identical batch
succeeds, inserts nothing and reports zero new rows; every stored entry has
a row with its `(feed_id, url)` key; and pairwise uniqueness of
`(feed_id, url)` is preserved. (A `(feed_id, guid)` collision on a distinct
url instead aborts the call with an error, per the counterexample.) -/
theorem C1_amended_store_idempotent_on_feed_url : ∀ (es db db' : List EntryRow) (n : Nat),
    storeFeedEntries db es = some (n, db') →
    storeFeedEntries db' es = some (0, db') ∧
    (∀ e ∈ es, ∃ r ∈ db', r.feed_id = e.feed_id ∧ r.url = e.url) ∧
    ((db.Pairwise fun x y => ¬ (x.feed_id = y.feed_id ∧ x.url = y.url)) →
      db'.Pairwise fun x y => ¬ (x.feed_id = y.feed_id ∧ x.url = y.url)) := by
  intro es
  induction es with
  | nil =>
    intro db db' n h
    simp only [storeFeedEntries, Option.some.injEq, Prod.mk.injEq] at h
    obtain ⟨_, hdb⟩ := h
    subst hdb
    exact ⟨rfl, by simp, fun hp => hp⟩
  | cons e rest ih =>
    intro db db' n h
    cases hins : insertEntrySql db e with
    | none => rw [storeFeedEntries_cons_none hins] at h; exact absurd h (by simp)
    | some p =>
      obtain ⟨b, db2⟩ := p
      cases hrec : storeFeedEntries db2 rest with
      | none => rw [storeFeedEntries_cons_rec_none hins hrec] at h; exact absurd h (by simp)
      | some q =>
        obtain ⟨m, db3⟩ := q
        rw [storeFeedEntries_cons_rec_some hins hrec] at h
        simp only [Option.some.injEq, Prod.mk.injEq] at h
        obtain ⟨_, hdb3⟩ := h
        rw [← hdb3]
        obtain ⟨ihIdem, ihKeys, ihPair⟩ := ih db2 db3 m hrec
        have hkey2 := insertEntrySql_key hins
        obtain ⟨ext2, hext2⟩ := storeFeedEntries_ext rest db2 db3 m hrec
        have hkey' : ∃ r ∈ db3, r.feed_id = e.feed_id ∧ r.url = e.url := by
          obtain ⟨r, hr, hcond⟩ := hkey2
          exact ⟨r, by rw [hext2]; exact List.mem_append_left _ hr, hcond⟩
        refine ⟨?_, ?_, ?_⟩
        · have hskip := insertEntrySql_conflict hkey'
          rw [storeFeedEntries_cons_rec_some hskip ihIdem]
          simp
        · intro x hx
          rcases List.mem_cons.mp hx with rfl | hx'
          · exact hkey'
          · exact ihKeys x hx'
        · intro hp
          exact ihPair (insertEntrySql_pairwise hins hp)

/-- Witness for C1 (amended): storing a one-entry batch inserts it, and
storing the identical batch again reports zero new rows with the store
unchanged. -/
theorem C1_witness :
    storeFeedEntries [] [c1Entry1] = some (1, [c1Entry1]) ∧
    storeFeedEntries [c1Entry1] [c1Entry1] = some (0, [c1Entry1]) :=
  ⟨by decide,
   (C1_amended_store_idempotent_on_feed_url [c1Entry1] [] [c1Entry1] 1 (by decide)).1⟩

/-! ## Claim C5: FIFO eviction bound on the time bucket -/

theorem addItem_max_eq (a : TimeBucketAggregator) (i : InputItem) :
    (a.addItem i).max_items_per_bucket = a.max_items_per_bucket := by
  unfold TimeBucketAggregator.addItem
  split <;> rfl

theorem foldl_addItem_items (l : List InputItem) : ∀ (a : TimeBucketAggregator),
    a.items.length ≤ a.max_items_per_bucket → 0 < a.max_items_per_bucket →
    (l.foldl TimeBucketAggregator.addItem a).items
      = (a.items ++ l).drop ((a.items ++ l).length - a.max_items_per_bucket) := by
  induction l with
  | nil =>
    intro a hlen _
    simp only [List.foldl_nil, List.append_nil]
    rw [Nat.sub_eq_zero_of_le hlen, List.drop_zero]
  | cons x xs ih =>
    intro a hlen hmax
    simp only [List.foldl_cons]
    by_cases hlt : a.items.length < a.max_items_per_bucket
    · have hstep : a.addItem x = { a with items := a.items ++ [x] } := by
        unfold TimeBucketAggregator.addItem
        rw [if_pos hlt]
      rw [hstep]
      have hres := ih { a with items := a.items ++ [x] }
        (by simpa using hlt) hmax
      rw [hres]
      simp [List.append_assoc]
    · have heq : a.items.length = a.max_items_per_bucket :=
        le_antisymm hlen (le_of_not_lt hlt)
      have hstep : a.addItem x = { a with items := a.items.tail ++ [x] } := by
        unfold TimeBucketAggregator.addItem
        rw [if_neg hlt]
      rw [hstep]
      have hlen2 : (a.items.tail ++ [x]).length ≤ a.max_items_per_bucket := by
        simp only [List.length_append, List.length_tail, List.length_cons,
          List.length_nil]
        omega
      have hres := ih { a with items := a.items.tail ++ [x] } hlen2 hmax
      rw [hres]
      cases hitems : a.items with
      | nil =>
        rw [hitems] at heq
        simp at heq
        omega
      | cons h0 t0 =>
        simp only [hitems, List.tail_cons]
        have hlen0 : t0.length + 1 = a.max_items_per_bucket := by
          rw [hitems] at heq
          simpa using heq
        have idxL : ((t0 ++ [x]) ++ xs).length - a.max_items_per_bucket = xs.length := by
          simp only [List.length_append, List.length_cons, List.length_nil]
          omega
        have idxR : ((h0 :: t0) ++ x :: xs).length - a.max_items_per_bucket
            = xs.length + 1 := by
          simp only [List.length_append, List.length_cons]
          omega
        rw [idxL, idxR]
        have hlistL : (t0 ++ [x]) ++ xs = t0 ++ x :: xs := by
          simp [List.append_assoc]
        have hlistR : (h0 :: t0) ++ x :: xs = h0 :: (t0 ++ x :: xs) := by
          simp
        rw [hlistL, hlistR, List.drop_succ_cons]

/-- C5: for any sequence of `add_item` calls of length
`n > max_items_per_bucket` on a time-bucket aggregator starting with an
empty buffer, the buffer length equals `max_items_per_bucket` and the
retained items are exactly the last `max_items_per_bucket` items added in
order (oldest evicted first, FIFO); moreover after every prefix of the
calls the invariant `|buffered_items| ≤ max_items_per_bucket` holds. -/
theorem C5_fifo_eviction (a : TimeBucketAggregator) (l : List InputItem)
    (hempty : a.items = []) (hmax : 0 < a.max_items_per_bucket)
    (hlonger : a.max_items_per_bucket < l.length) :
    (l.foldl TimeBucketAggregator.addItem a).items.length = a.max_items_per_bucket ∧
    (l.foldl TimeBucketAggregator.addItem a).items
      = l.drop (l.length - a.max_items_per_bucket) ∧
    ∀ p, p <+: l →
      (p.foldl TimeBucketAggregator.addItem a).items.length ≤ a.max_items_per_bucket := by
  have base := foldl_addItem_items l a (by simp [hempty]) hmax
  rw [hempty] at base
  simp only [List.nil_append] at base
  refine ⟨?_, base, ?_⟩
  · rw [base, List.length_drop]
    omega
  · intro p _
    have hb := foldl_addItem_items p a (by simp [hempty]) hmax
    rw [hempty] at hb
    simp only [List.nil_append] at hb
    rw [hb, List.length_drop]
    omega

/-- Fifty-one distinct items for the C5 witness (one over the default
`max_items_per_bucket` of 50). -/
def c5Items : List InputItem :=
  (List.range 51).map fun i =>
    { uri := toString i, live_source_uri := "", text := "", vision := none }

/-- Witness for C5: 51 adds against the default 50-slot bucket keep the
last 50 items. -/
theorem C5_witness :
    (TimeBucketAggregator.new "u").items = [] ∧
    0 < (TimeBucketAggregator.new "u").max_items_per_bucket ∧
    (TimeBucketAggregator.new "u").max_items_per_bucket < c5Items.length ∧
    (c5Items.foldl TimeBucketAggregator.addItem (TimeBucketAggregator.new "u")).items
      = c5Items.drop (c5Items.length - (TimeBucketAggregator.new "u").max_items_per_bucket) :=
  ⟨rfl, by decide, by decide,
   (C5_fifo_eviction (TimeBucketAggregator.new "u") c5Items rfl (by decide) (by decide)).2.1⟩

/-! ## Claim C9: relevance score formula and endpoints -/

/-- C9: the relevance score is `0.3` per matched preference keyword plus
`0.4` per matched topic plus `0.5` for an exact match of the whole
preference description plus `0.2` per keyword also appearing in the
extracted `Title:` line, capped at `1.0`; an item with zero matches scores
exactly `0.0`, and an item matching everything (with at least one keyword
and one topic) scores exactly `1.0`. -/
theorem C9_relevance_score_formula (prefs : PonderedPreferences) (itemText : String) :
    (calculateRelevanceScore prefs itemText =
      min ((3/10 : ℚ)
            * prefs.keywords.countP (fun kw =>
                containsSub (toLowerList itemText) (toLowerList kw))
          + (2/5 : ℚ)
            * prefs.topics.countP (fun tp =>
                containsSub (toLowerList itemText) (toLowerList tp))
          + (if containsSub (toLowerList itemText) (toLowerList prefs.look_out_for)
              then (1/2 : ℚ) else 0)
          + (1/5 : ℚ) * (titleKeywordCount prefs.keywords (toLowerList itemText) : ℚ)) 1) ∧
    ((∀ kw ∈ prefs.keywords, containsSub (toLowerList itemText) (toLowerList kw) = false) →
     (∀ tp ∈ prefs.topics, containsSub (toLowerList itemText) (toLowerList tp) = false) →
     containsSub (toLowerList itemText) (toLowerList prefs.look_out_for) = false →
     calculateRelevanceScore prefs itemText = 0) ∧
    (prefs.keywords ≠ [] → prefs.topics ≠ [] →
     (∀ kw ∈ prefs.keywords, containsSub (toLowerList itemText) (toLowerList kw) = true) →
     (∀ tp ∈ prefs.topics, containsSub (toLowerList itemText) (toLowerList tp) = true) →
     containsSub (toLowerList itemText) (toLowerList prefs.look_out_for) = true →
     calculateRelevanceScore prefs itemText = 1) := by
  have hform : calculateRelevanceScore prefs itemText =
      min ((3/10 : ℚ)
            * prefs.keywords.countP (fun kw =>
                containsSub (toLowerList itemText) (toLowerList kw))
          + (2/5 : ℚ)
            * prefs.topics.countP (fun tp =>
                containsSub (toLowerList itemText) (toLowerList tp))
          + (if containsSub (toLowerList itemText) (toLowerList prefs.look_out_for)
              then (1/2 : ℚ) else 0)
          + (1/5 : ℚ) * (titleKeywordCount prefs.keywords (toLowerList itemText) : ℚ)) 1 := by
    unfold calculateRelevanceScore titleKeywordCount
    simp only [foldl_addIf]
    cases htitle : titleSliceLower (toLowerList itemText) with
    | none =>
      cases hphrase : containsSub (toLowerList itemText) (toLowerList prefs.look_out_for) with
      | true =>
        simp only [hphrase, if_true]
        congr 1
        ring
      | false =>
        simp only [hphrase, Bool.false_eq_true, if_false]
        congr 1
        ring
    | some title =>
      cases hphrase : containsSub (toLowerList itemText) (toLowerList prefs.look_out_for) with
      | true =>
        simp only [hphrase, if_true, foldl_addIf]
        congr 1
        ring
      | false =>
        simp only [hphrase, Bool.false_eq_true, if_false, foldl_addIf]
        congr 1
        ring
  refine ⟨hform, ?_, ?_⟩
  · intro hkw htp hph
    rw [hform]
    have hck : prefs.keywords.countP (fun kw =>
        containsSub (toLowerList itemText) (toLowerList kw)) = 0 := by
      rw [List.countP_eq_zero]
      intro kw hmem
      simp [hkw kw hmem]
    have hct : prefs.topics.countP (fun tp =>
        containsSub (toLowerList itemText) (toLowerList tp)) = 0 := by
      rw [List.countP_eq_zero]
      intro tp hmem
      simp [htp tp hmem]
    have hti : titleKeywordCount prefs.keywords (toLowerList itemText) = 0 := by
      unfold titleKeywordCount
      cases htitle : titleSliceLower (toLowerList itemText) with
      | none => rfl
      | some title =>
        simp only
        rw [List.countP_eq_zero]
        intro kw hmem hx
        have := titleSliceLower_inside htitle hx
        rw [hkw kw hmem] at this
        exact Bool.false_ne_true this
    rw [hck, hct, hti, hph]
    norm_num
  · intro hkne htne hkw htp hph
    rw [hform]
    have hck : prefs.keywords.countP (fun kw =>
        containsSub (toLowerList itemText) (toLowerList kw)) = prefs.keywords.length := by
      rw [List.countP_eq_length]
      intro kw hmem
      simp [hkw kw hmem]
    have hct : prefs.topics.countP (fun tp =>
        containsSub (toLowerList itemText) (toLowerList tp)) = prefs.topics.length := by
      rw [List.countP_eq_length]
      intro tp hmem
      simp [htp tp hmem]
    rw [hck, hct, hph, if_pos rfl]
    have hk1 : (1 : ℚ) ≤ prefs.keywords.length := by
      have h1 : 1 ≤ prefs.keywords.length := List.length_pos.mpr hkne
      exact_mod_cast h1
    have ht1 : (1 : ℚ) ≤ prefs.topics.length := by
      have h1 : 1 ≤ prefs.topics.length := List.length_pos.mpr htne
      exact_mod_cast h1
    have hh0 : (0 : ℚ) ≤ (titleKeywordCount prefs.keywords (toLowerList itemText) : ℚ) := by
      positivity
    rw [min_eq_right]
    linarith

/-- Preferences for the C9 witness: one keyword, one topic. -/
def c9Prefs : PonderedPreferences :=
  { look_out_for := "ai", keywords := ["artificial"], topics := ["technology"] }

/-- Witness for C9: a fully matching item scores exactly 1, a fully
non-matching item scores exactly 0. -/
theorem C9_witness :
    calculateRelevanceScore c9Prefs "Title: Artificial technology AI\nbody" = 1 ∧
    calculateRelevanceScore c9Prefs "football schedule" = 0 :=
  ⟨(C9_relevance_score_formula c9Prefs "Title: Artificial technology AI\nbody").2.2
      (by decide) (by decide) (by decide) (by decide) (by decide),
   (C9_relevance_score_formula c9Prefs "football schedule").2.1
      (by decide) (by decide) (by decide)⟩

/-! ## Claim C4: list_due_sources ordering -/

/-- Priority-150 feed with an early last fetch but a long interval. -/
def c4FeedA : FeedRow :=
  { id := 1, is_active := true, last_fetch_time := some 0,
    update_frequency_hours := some 10, error_count := 0 }

/-- Priority-150 feed with a later last fetch but a short interval. -/
def c4FeedB : FeedRow :=
  { id := 2, is_active := true, last_fetch_time := some 3600,
    update_frequency_hours := some 2, error_count := 0 }

/-- Counterexample to C4: two active due sources of equal priority 150 where
feed 1 has the earlier `last_fetch_time`; the claim's order (`last_fetch_time`
ascending within equal priority) would put feed 1 first, but the code sorts
equal-priority entries by computed `next_fetch_time`, returning feed 2 first. -/
theorem C4_counterexample :
    c4FeedA.priority = 150 ∧ c4FeedB.priority = 150 ∧
    lastFetchLE c4FeedA.last_fetch_time c4FeedB.last_fetch_time ∧
    ¬ lastFetchLE c4FeedB.last_fetch_time c4FeedA.last_fetch_time ∧
    (getFeedsToFetch [c4FeedA, c4FeedB] 72000 10).map ScheduleInfo.feed_id = [2, 1] := by
  refine ⟨by decide, by decide, by decide, by decide, by decide⟩

/-- C4 (amended): whenever all active sources fit within `limit`,
`get_feeds_to_fetch` returns exactly the active sources whose computed
`next_fetch_time ≤ now` (as a permutation of that selection), ordered by
priority descending (255 never fetched, 150 normal, 50 failing) and, within
equal priority, by computed `next_fetch_time` ascending — not by
`last_fetch_time`. When more than `limit` active sources exist, the SQL
`LIMIT` applies before the due filter, so the result may omit due sources. -/
theorem C4_amended_due_sources (table : List FeedRow) (now : Int) (limit : Nat)
    (hlimit : (table.filter (fun r => r.is_active)).length ≤ limit) :
    (getFeedsToFetch table now limit).Perm
      ((table.filter (fun r => r.is_active)).filterMap fun r =>
        if r.nextFetchTime now ≤ now then
          some { feed_id := r.id, next_fetch_time := r.nextFetchTime now,
                 priority := r.priority }
        else none) ∧
    List.Sorted schedOrder (getFeedsToFetch table now limit) ∧
    ∀ s ∈ getFeedsToFetch table now limit, s.next_fetch_time ≤ now := by
  have htake : (((table.filter (fun r => r.is_active)).insertionSort sqlOrder).take limit)
      = (table.filter (fun r => r.is_active)).insertionSort sqlOrder := by
    apply List.take_of_length_le
    rw [List.length_insertionSort]
    exact hlimit
  refine ⟨?_, ?_, ?_⟩
  · show (getFeedsToFetch table now limit).Perm _
    unfold getFeedsToFetch
    rw [htake]
    refine (List.perm_insertionSort schedOrder _).trans ?_
    exact (List.perm_insertionSort sqlOrder _).filterMap _
  · unfold getFeedsToFetch
    exact List.sorted_insertionSort schedOrder _
  · intro s hs
    unfold getFeedsToFetch at hs
    rw [List.mem_insertionSort] at hs
    obtain ⟨r, _, hfr⟩ := List.mem_filterMap.mp hs
    by_cases hdue : r.nextFetchTime now ≤ now
    · rw [if_pos hdue] at hfr
      obtain rfl := Option.some.inj hfr
      exact hdue
    · rw [if_neg hdue] at hfr
      exact absurd hfr (by simp)

/-- Witness for C4 (amended) at a single-feed table within the limit. -/
theorem C4_witness :
    ([c4FeedA].filter (fun r => r.is_active)).length ≤ 1 ∧
    ((getFeedsToFetch [c4FeedA] 72000 1).Perm
      (([c4FeedA].filter (fun r => r.is_active)).filterMap fun r =>
        if r.nextFetchTime 72000 ≤ 72000 then
          some { feed_id := r.id, next_fetch_time := r.nextFetchTime 72000,
                 priority := r.priority }
        else none) ∧
    List.Sorted schedOrder (getFeedsToFetch [c4FeedA] 72000 1) ∧
    ∀ s ∈ getFeedsToFetch [c4FeedA] 72000 1, s.next_fetch_time ≤ 72000) :=
  ⟨by decide, C4_amended_due_sources [c4FeedA] 72000 1 (by decide)⟩
